import Mathlib

/-!
Verification of the NeuroTrack doctor-dashboard client logic.

This file gives a shallow embedding of the pure logic of
`src/assets/js/doctor-dashboard.js` and `src/assets/js/mock-auth.js`:

* the calendar month-grid computation of `renderCalendar` together with the
  derived views `renderMiniCalendar`, `renderUpcomingEvents` and
  `renderTodaysEvents`;
* the chat state updates of `selectParticipant` and `sendMessage`, with
  `renderParticipants` modelling the participant-list markup;
* the section toggling of `showSection`;
* the category-filter toggling of `filterEvents`;
* the event loading with fallback of `initializeScheduleView`
  (here `loadCalendarEvents`);
* the login validation of `handleLogin`.

Modelling conventions:

* JS `Date` instants are integers (milliseconds); civil dates are counted in
  days from 0001-01-01 of the proleptic Gregorian calendar, which is exactly
  the calendar JS `Date` uses, so day-of-week and month arithmetic agree with
  the source.  Timestamp fields that the source only ever compares
  (`lastMessageTime`, message `time`) are kept as integers directly.
* DOM rendering is modelled by the data the source interpolates into the
  markup: a calendar day cell carries its filtered event list, a rendered
  participant row carries the fields the template reads (name, active
  highlight, unread badge), and so on.
* Fallible steps (JSON fetch, date-string parsing) return `Option`; a JS
  `NaN` date makes every `>=` comparison false, which the model mirrors by
  treating an unparsable date as failing the comparison.
-/

namespace NeuroTrack

/-! ### Data model -/

/-- A calendar event as loaded from `calendar-events.json` or
`FallbackData.calendarEvents`: `{id, title, description, date, time,
category, icon}` with `date` a `"YYYY-MM-DD"` string and `time` `"HH:MM"`. -/
structure CalendarEvent where
  id : Nat
  title : String
  description : String
  date : String
  time : String
  category : String
  icon : String
deriving DecidableEq

/-- A chat participant.  `lastMessageTime` is an instant in milliseconds
(the source stores an ISO string it only ever converts back with
`new Date(...)` for comparison). -/
structure Participant where
  id : String
  name : String
  type : String
  online : Bool
  lastMessage : String
  lastMessageTime : Int
  unread : Nat
deriving DecidableEq

/-- One chat message; `sender` models the JS field `from` (`"me"`/`"other"`),
`time` is an instant in milliseconds. -/
structure Message where
  id : String
  sender : String
  text : String
  time : Int
  sent : Bool
deriving DecidableEq

/-- `DoctorDashboard.chatData`: the participant list plus the per-participant
message map (modelled as an association list keyed by participant id). -/
structure ChatData where
  participants : List Participant
  messages : List (String × List Message)
deriving DecidableEq

/-! ### Date arithmetic (the part of JS `Date` the dashboard uses) -/

/-- Gregorian leap-year rule, as implemented by JS `Date`. -/
def isLeapYear (y : Nat) : Bool :=
  (y % 4 == 0 && y % 100 != 0) || y % 400 == 0

/-- `new Date(year, month + 1, 0).getDate()`: the number of days of month
`m` (0-based, as returned by `Date#getMonth`) in year `y`.  The dashboard's
month cursor keeps `m < 12`; the catch-all arm is irrelevant to it. -/
def daysInMonth (y m : Nat) : Nat :=
  match m with
  | 0 => 31
  | 1 => if isLeapYear y then 29 else 28
  | 2 => 31
  | 3 => 30
  | 4 => 31
  | 5 => 30
  | 6 => 31
  | 7 => 31
  | 8 => 30
  | 9 => 31
  | 10 => 30
  | _ => 31

/-- `new Date(year, month, 0).getDate()`: last day of the month preceding
`m` (0-based), rolling into December of the previous year for January. -/
def prevMonthLastDay (y m : Nat) : Nat :=
  if m = 0 then daysInMonth (y - 1) 11 else daysInMonth y (m - 1)

/-- Days in year `y` before month `m` (0-based). -/
def daysBeforeMonth (y m : Nat) : Nat :=
  ((List.range m).map (daysInMonth y)).sum

/-- Days before January 1st of year `y` counted from 0001-01-01
(proleptic Gregorian). -/
def daysBeforeYear (y : Nat) : Nat :=
  365 * (y - 1) + (y - 1) / 4 - (y - 1) / 100 + (y - 1) / 400

/-- Day index of the civil date `y`/`m`/`d` (month 0-based, day 1-based),
with day 0 = 0001-01-01. -/
def dayNumber (y m d : Nat) : Nat :=
  daysBeforeYear y + daysBeforeMonth y m + (d - 1)

/-- `Date#getDay` of the civil date: 0 = Sunday … 6 = Saturday
(0001-01-01 was a Monday). -/
def jsGetDay (y m d : Nat) : Nat :=
  (dayNumber y m d + 1) % 7

/-- `firstDay.getDay() === 0 ? 6 : firstDay.getDay() - 1` from
`renderCalendar`: the Monday-based weekday index of the 1st of the month,
i.e. the number of leading previous-month cells. -/
def startingDayOfWeek (y m : Nat) : Nat :=
  if jsGetDay y m 1 = 0 then 6 else jsGetDay y m 1 - 1

/-- `String(n).padStart(2, '0')`. -/
def pad2 (n : Nat) : String :=
  if n < 10 then "0" ++ toString n else toString n

/-- The template `` `${year}-${String(month + 1).padStart(2, '0')}-${String(day).padStart(2, '0')}` ``
used for cell dates and for today's date (month 0-based, day 1-based). -/
def dateStrOf (y m d : Nat) : String :=
  toString y ++ "-" ++ pad2 (m + 1) ++ "-" ++ pad2 d

/-- Split a character list at a separator character: the semantics of
`String.prototype.split` for the single-character separators (`"-"`, `":"`)
the dashboard's date and time strings use, in a kernel-computable form. -/
def splitOnChar (sep : Char) : List Char → List (List Char)
  | [] => [[]]
  | c :: cs =>
    if c == sep then [] :: splitOnChar sep cs
    else
      match splitOnChar sep cs with
      | [] => [[c]]
      | g :: gs => (c :: g) :: gs

/-- Parse a non-empty all-digit character list as a decimal number
(`none` otherwise), in a kernel-computable form. -/
def charsToNat? (cs : List Char) : Option Nat :=
  if cs.isEmpty then none
  else if cs.all Char.isDigit then
    some (cs.foldl (fun n c => n * 10 + (c.toNat - Char.toNat (Char.ofNat 48))) 0)
  else none

/-- JS `String.prototype.trim`: strip leading and trailing whitespace, in a
kernel-computable form. -/
def jsTrim (s : String) : String :=
  String.mk
    (((s.data.dropWhile Char.isWhitespace).reverse.dropWhile
      Char.isWhitespace).reverse)

/-- Parse a `"YYYY-MM-DD"` string into (year, 1-based month, day). -/
def parseDateStr (s : String) : Option (Nat × Nat × Nat) :=
  match splitOnChar (Char.ofNat 45) s.data with
  | [ys, ms, ds] =>
    match charsToNat? ys, charsToNat? ms, charsToNat? ds with
    | some y, some mo, some d => some (y, mo, d)
    | _, _, _ => none
  | _ => none

/-- Civil day index of a `"YYYY-MM-DD"` string (`none` on parse failure,
the JS `NaN` date). -/
def dayNumOfDateStr (s : String) : Option Nat :=
  (parseDateStr s).map fun x => dayNumber x.1 (x.2.1 - 1) x.2.2

/-- `new Date(dateStr).getTime()` for a `"YYYY-MM-DD"` string: such strings
are parsed as UTC midnight of that civil date. -/
def dateMs (s : String) : Option Int :=
  (dayNumOfDateStr s).map fun n => (n : Int) * 86400000

/-- Milliseconds into the day of an `"HH:MM"` time string (0 if malformed;
all event times in the system are well-formed `"HH:MM"`). -/
def timeMs (t : String) : Int :=
  match splitOnChar (Char.ofNat 58) t.data with
  | [hs, ms] =>
    match charsToNat? hs, charsToNat? ms with
    | some h, some mi => ((h * 3600000 + mi * 60000 : Nat) : Int)
    | _, _ => 0
  | _ => 0

/-- Sort key `new Date(a.date + 'T' + a.time)` used by the upcoming-events
comparator, up to the constant local-offset shift (which cancels in every
comparison between two such keys). -/
def upcomingKey (e : CalendarEvent) : Int :=
  ((dayNumOfDateStr e.date).getD 0 : Int) * 86400000 + timeMs e.time

/-- The civil day a `Date` built from instant `now` reports through its
local `getFullYear/getMonth/getDate` accessors, at fixed UTC offset `tz`
milliseconds; `/` on `Int` is floor division for this positive divisor. -/
def localDayOf (tz now : Int) : Int :=
  (now + tz) / 86400000

/-! ### The month grid of `renderCalendar` -/

/-- The filter applied per day cell in `renderCalendar`:
`calendarEvents.filter(evt => evt.date === cellDate && activeFilters.includes(evt.category))`. -/
def dayEventsFor (events : List CalendarEvent) (activeFilters : List String)
    (cellDate : String) : List CalendarEvent :=
  events.filter fun evt => evt.date == cellDate && activeFilters.contains evt.category

/-- One cell of the 42-cell month grid.  `prevM`/`nextM` are the
`other-month` cells carrying only a day number; `curM` carries the day
number, the `today` highlight flag and the (category-filtered) events
rendered into the cell. -/
inductive CalCell where
  | prevM (day : Nat)
  | curM (day : Nat) (isToday : Bool) (events : List CalendarEvent)
  | nextM (day : Nat)
deriving DecidableEq

/-- `true` exactly on current-month cells. -/
def CalCell.isCur : CalCell → Bool
  | .curM _ _ _ => true
  | _ => false

/-- The `for (let i = 0; i < totalCells; i++)` loop body of `renderCalendar`,
with the loop turned into recursion on the number of remaining iterations:
`remaining` counts down from 42 while `i`, `dayCounter` and
`nextMonthCounter` evolve exactly as the mutable loop variables do.
`today` is the `(getFullYear(), getMonth(), getDate())` triple of
`new Date()`. -/
def renderCells (events : List CalendarEvent) (filters : List String)
    (y m : Nat) (today : Nat × Nat × Nat) (start dim prevLast : Nat) :
    Nat → Nat → Nat → Nat → List CalCell
  | 0, _, _, _ => []
  | remaining + 1, i, dayCounter, nextCounter =>
    if i < start then
      CalCell.prevM (prevLast - start + i + 1) ::
        renderCells events filters y m today start dim prevLast
          remaining (i + 1) dayCounter nextCounter
    else if dayCounter ≤ dim then
      CalCell.curM dayCounter
          (dayCounter == today.2.2 && m == today.2.1 && y == today.1)
          (dayEventsFor events filters (dateStrOf y m dayCounter)) ::
        renderCells events filters y m today start dim prevLast
          remaining (i + 1) (dayCounter + 1) nextCounter
    else
      CalCell.nextM nextCounter ::
        renderCells events filters y m today start dim prevLast
          remaining (i + 1) dayCounter (nextCounter + 1)

/-- The 42-cell grid `renderCalendar` writes into `calendarBody`, for the
month/year cursor `(y, m)` (month 0-based): 42 iterations starting at
`i = 0`, `dayCounter = 1`, `nextMonthCounter = 1`. -/
def calendarGrid (events : List CalendarEvent) (filters : List String)
    (y m : Nat) (today : Nat × Nat × Nat) : List CalCell :=
  renderCells events filters y m today
    (startingDayOfWeek y m) (daysInMonth y m) (prevMonthLastDay y m) 42 0 1 1

/-- Closed form of the cell at index `i` of the grid (proved equal to the
loop's output in `calendarGrid_eq_map` below). -/
def cellAt (events : List CalendarEvent) (filters : List String)
    (y m : Nat) (today : Nat × Nat × Nat) (start dim prevLast : Nat)
    (i : Nat) : CalCell :=
  if i < start then
    CalCell.prevM (prevLast - start + i + 1)
  else if i < start + dim then
    CalCell.curM (i - start + 1)
      ((i - start + 1) == today.2.2 && m == today.2.1 && y == today.1)
      (dayEventsFor events filters (dateStrOf y m (i - start + 1)))
  else
    CalCell.nextM (i - start - dim + 1)

/-! ### The auxiliary calendar views -/

/-- One slot of the mini calendar: a leading blank or a day cell with the
`today` highlight and the `has-events` dot. -/
inductive MiniCell where
  | blank
  | day (day : Nat) (isToday : Bool) (hasEvents : Bool)
deriving DecidableEq

/-- `renderMiniCalendar`: `startDay` leading blanks, then one cell per day
of the month whose dot is `calendarEvents.some(e => e.date === dateStr)` —
note: the dot ignores the category filters. -/
def renderMiniCalendar (events : List CalendarEvent) (y m : Nat)
    (today : Nat × Nat × Nat) : List MiniCell :=
  List.replicate (startingDayOfWeek y m) MiniCell.blank ++
    (List.range (daysInMonth y m)).map fun k =>
      MiniCell.day (k + 1)
        ((k + 1) == today.2.2 && m == today.2.1 && y == today.1)
        (events.any fun e => e.date == dateStrOf y m (k + 1))

/-- The filter predicate of `renderUpcomingEvents`:
`new Date(evt.date) >= today && activeFilters.includes(evt.category)`,
where `today = new Date()` is the current instant `now` — the source does
not zero the time of day here. -/
def upcomingPred (now : Int) (filters : List String) (evt : CalendarEvent) : Bool :=
  (match dateMs evt.date with
   | some t => decide (now ≤ t)
   | none => false) && filters.contains evt.category

/-- `renderUpcomingEvents`: filter by `upcomingPred`, sort ascending by the
`date + 'T' + time` key, cap at 10 (`slice(0, 10)`). -/
def renderUpcomingEvents (now : Int) (events : List CalendarEvent)
    (filters : List String) : List CalendarEvent :=
  (List.insertionSort (fun a b => upcomingKey a ≤ upcomingKey b)
      (events.filter (upcomingPred now filters))).take 10

/-- The `"YYYY-MM-DD"` string `renderTodaysEvents` builds from today's
`(getFullYear(), getMonth(), getDate())` triple. -/
def todayDateStr (today : Nat × Nat × Nat) : String :=
  dateStrOf today.1 today.2.1 today.2.2

/-- `renderTodaysEvents`: all events whose date string equals today's —
no category filtering. -/
def renderTodaysEvents (today : Nat × Nat × Nat)
    (events : List CalendarEvent) : List CalendarEvent :=
  events.filter fun e => e.date == todayDateStr today

/-- `filterEvents(category)`: remove the category if present
(`indexOf`/`splice`, first occurrence) else `push` it. -/
def filterEvents (activeFilters : List String) (category : String) : List String :=
  if activeFilters.contains category then activeFilters.erase category
  else activeFilters ++ [category]

/-! ### Event loading with fallback (`initializeScheduleView`) -/

/-- Outcome of `fetch('../data/calendar-events.json')` + `response.json()`:
`failure` covers a rejected fetch or malformed JSON (the `catch` path);
`success evs?` is a parsed body whose `events` field is `evs?`
(`none` when the field is absent, so that `data.events || []` yields `[]`). -/
inductive FetchOutcome where
  | failure
  | success (events : Option (List CalendarEvent))
deriving DecidableEq

/-- `FallbackData.calendarEvents`. -/
def fallbackCalendarEvents : List CalendarEvent :=
  [⟨1, "Patient Consultation", "Alice Tan - Recovery Progress Review", "2025-12-16", "09:00", "consultation", "👩‍⚕️"⟩,
   ⟨2, "Team Meeting", "Weekly physio team sync", "2025-12-16", "11:00", "meeting", "👥"⟩,
   ⟨3, "Therapy Session", "Robert Chen - Motor Function", "2025-12-16", "14:00", "therapy", "🏃"⟩,
   ⟨4, "Patient Checkup", "Maria Santos - Balance Assessment", "2025-12-17", "10:00", "checkup", "📋"⟩,
   ⟨5, "Consultation", "New patient intake - David Kim", "2025-12-17", "13:00", "consultation", "👩‍⚕️"⟩,
   ⟨6, "Department Meeting", "Monthly review with neurology dept", "2025-12-18", "09:30", "meeting", "👥"⟩,
   ⟨7, "Therapy Review", "Susan Park - Upper limb progress", "2025-12-18", "15:00", "therapy", "🏃"⟩,
   ⟨8, "Patient Consultation", "John Williams - Speech therapy update", "2025-12-19", "11:00", "consultation", "👩‍⚕️"⟩,
   ⟨9, "Checkup", "Emma Thompson - Spinal assessment", "2025-12-19", "14:30", "checkup", "📋"⟩,
   ⟨10, "Team Sync", "Physio progress reports", "2025-12-20", "10:00", "meeting", "👥"⟩]

/-- The event-loading logic of `initializeScheduleView`: on fetch/parse
failure use the fallback list; otherwise take `data.events || []` and fall
back as well when that is empty. -/
def loadCalendarEvents (r : FetchOutcome) : List CalendarEvent :=
  match r with
  | .failure => fallbackCalendarEvents
  | .success evs? =>
    let events := evs?.getD []
    if events.length = 0 then fallbackCalendarEvents else events

/-! ### Chat state and operations -/

/-- The data a participant row of `renderParticipants` interpolates into its
markup: the id (`data-id`), the name, the `active` highlight class, and the
unread badge which the template emits only when `p.unread > 0`. -/
structure RenderedParticipant where
  id : String
  name : String
  isActive : Bool
  showsUnreadBadge : Bool
deriving DecidableEq

/-- The `filterType` dispatch of `renderParticipants`
(`'patient'` / `'physio'` filter, anything else shows all). -/
def filterByType (filterType : String) (ps : List Participant) : List Participant :=
  if filterType == "patient" then ps.filter fun p => p.type == "patient"
  else if filterType == "physio" then ps.filter fun p => p.type == "physio"
  else ps

/-- `renderParticipants(filterType)`: filter by type, sort by
most-recent-message-time descending (comparator
`new Date(b.lastMessageTime) - new Date(a.lastMessageTime)`), and render
each row.  An empty result renders the empty state, i.e. no rows. -/
def renderParticipants (cd : ChatData) (activeChat : Option String)
    (filterType : String) : List RenderedParticipant :=
  (List.insertionSort (fun a b => b.lastMessageTime ≤ a.lastMessageTime)
      (filterByType filterType cd.participants)).map fun p =>
    { id := p.id
      name := p.name
      isActive := activeChat == some p.id
      showsUnreadBadge := decide (0 < p.unread) }

/-- The chat-related slice of the `DoctorDashboard` state bag together with
the chat DOM the code rewrites: the active-conversation header (`none` =
placeholder shown), the rendered participant list, the rendered message
thread, and the composer input value. -/
structure ChatState where
  chatData : ChatData
  activeChat : Option String
  currentFilter : String
  composer : String
  header : Option (String × Bool)
  renderedList : List RenderedParticipant
  renderedThread : List Message
deriving DecidableEq

/-- `chatData.messages?.[pid] || []`: the thread stored for `pid`. -/
def getThread (msgs : List (String × List Message)) (pid : String) : List Message :=
  ((msgs.find? fun kv => kv.1 == pid).map (·.2)).getD []

/-- Store thread `v` under `pid`, creating the key if absent
(`if (!messages[pid]) messages[pid] = []` followed by mutation). -/
def setThread (msgs : List (String × List Message)) (pid : String)
    (v : List Message) : List (String × List Message) :=
  if (msgs.find? fun kv => kv.1 == pid).isSome then
    msgs.map fun kv => if kv.1 == pid then (kv.1, v) else kv
  else msgs ++ [(pid, v)]

/-- `participant.unread = 0` applied to the participant `find` locates:
only the first record with this id is mutated. -/
def clearUnreadFirst (pid : String) : List Participant → List Participant
  | [] => []
  | p :: ps =>
    if p.id == pid then { p with unread := 0 } :: ps
    else p :: clearUnreadFirst pid ps

/-- `participant.lastMessage = text; participant.lastMessageTime = now`
applied to the participant `find` locates (no-op when the id is absent,
matching the `if (participant)` guard). -/
def setLastMessageFirst (pid text : String) (now : Int) :
    List Participant → List Participant
  | [] => []
  | p :: ps =>
    if p.id == pid then { p with lastMessage := text, lastMessageTime := now } :: ps
    else p :: setLastMessageFirst pid text now ps

/-- `selectParticipant(participantId)`: set the active chat id first; if no
participant carries this id, return (UI untouched).  Otherwise clear that
participant's unread count, swap the header to the active-conversation
header, load the thread, and re-render the participant list with the
current filter. -/
def selectParticipant (st : ChatState) (pid : String) : ChatState :=
  let st1 : ChatState := { st with activeChat := some pid }
  match st.chatData.participants.find? (fun p => p.id == pid) with
  | none => st1
  | some p =>
    let cd : ChatData :=
      { st.chatData with participants := clearUnreadFirst pid st.chatData.participants }
    { st1 with
      chatData := cd
      header := some (p.name, p.online)
      renderedThread := getThread cd.messages pid
      renderedList := renderParticipants cd (some pid) st.currentFilter }

/-- `sendMessage()`: no-op when no chat is active or the trimmed composer
text is empty; otherwise push a self-authored message with the current
timestamp onto the active thread, update the participant's last-message
fields, clear the composer, and re-render thread and participant list. -/
def sendMessage (st : ChatState) (now : Int) : ChatState :=
  match st.activeChat with
  | none => st
  | some pid =>
    let text := jsTrim st.composer
    if text == "" then st
    else
      let thread := getThread st.chatData.messages pid ++
        [{ id := "m" ++ toString now, sender := "me", text := text, time := now, sent := true }]
      let cd : ChatData :=
        { participants := setLastMessageFirst pid text now st.chatData.participants
          messages := setThread st.chatData.messages pid thread }
      { st with
        chatData := cd
        composer := ""
        renderedThread := thread
        renderedList := renderParticipants cd st.activeChat st.currentFilter }

/-! ### Section navigation (`showSection`) -/

/-- Visibility of the four top-level panels. -/
structure SectionsVis where
  dashboard : Bool
  schedule : Bool
  profile : Bool
  messages : Bool
deriving DecidableEq

/-- The navigation state: panel visibility plus
`DoctorDashboard.activeSection`. -/
structure NavState where
  vis : SectionsVis
  activeSection : String
deriving DecidableEq

/-- `showSection(section)`: hide all four panels, then the `switch` shows
only the matching one (an unmatched name shows none), and the function ends
with `DoctorDashboard.activeSection = section` unconditionally. -/
def showSection (_st : NavState) (s : String) : NavState :=
  let hidden : SectionsVis := ⟨false, false, false, false⟩
  let vis :=
    if s == "dashboard" then { hidden with dashboard := true }
    else if s == "schedule" then { hidden with schedule := true }
    else if s == "profile" then { hidden with profile := true }
    else if s == "messages" then { hidden with messages := true }
    else hidden
  { vis := vis, activeSection := s }

/-- Number of visible panels. -/
def visibleCount (v : SectionsVis) : Nat :=
  (if v.dashboard then 1 else 0) + (if v.schedule then 1 else 0) +
    (if v.profile then 1 else 0) + (if v.messages then 1 else 0)

/-! ### Mock-auth login validation (`mock-auth.js`) -/

/-- `validatePassword`: `password.length >= 8`. -/
def validatePassword (password : String) : Bool :=
  decide (8 ≤ password.length)

/-- The three login form fields read by `handleLogin` (empty string models
a missing/unselected value, which is falsy in the source's `!role` test). -/
structure LoginForm where
  identifier : String
  password : String
  role : String
deriving DecidableEq

/-- What `handleLogin` does after validation: either it returns with the
listed field errors shown and no network call, or it issues the
`POST /auth/login` request with the given body. -/
inductive LoginAction where
  | blocked (errors : List (String × String))
  | request (identifier password : String)
deriving DecidableEq

/-- The `(field, message)` errors `handleLogin` shows, in source order. -/
def loginErrors (f : LoginForm) : List (String × String) :=
  (if jsTrim f.identifier == "" then
    [("emailError", "Please enter your username or email")] else []) ++
  (if !validatePassword f.password then
    [("passwordError", "Password must be at least 8 characters")] else []) ++
  (if f.role == "" then [("roleError", "Please select your role")] else [])

/-- The validation gate of `handleLogin`: `if (hasError) return;` before
any `fetch`. -/
def handleLogin (f : LoginForm) : LoginAction :=
  if loginErrors f == [] then LoginAction.request f.identifier f.password
  else LoginAction.blocked (loginErrors f)

/-! ### Shared example data for concrete instantiations -/

/-- A sample participant (first entry of `FallbackData.chatParticipants`,
with its timestamp as an instant). -/
def pAlice : Participant :=
  { id := "p1", name := "Alice Tan", type := "patient", online := true,
    lastMessage := "Thank you for the update, Doctor!", lastMessageTime := 1800000,
    unread := 2 }

/-- A sample chat state: Alice loaded, active, a drafted composer text. -/
def chatStateEx : ChatState :=
  { chatData := { participants := [pAlice], messages := [] }
    activeChat := some "p1"
    currentFilter := "all"
    composer := "  hello  "
    header := none
    renderedList := []
    renderedThread := [] }

/-- Eleven same-day qualifying events: ten meetings then a later therapy
session; exercises the upcoming list's 10-item cap. -/
def capEventsEx : List CalendarEvent :=
  (List.range 10).map (fun n =>
    { id := n + 1, title := "Meeting", description := "", date := "2025-12-16",
      time := "09:00", category := "meeting", icon := "" }) ++
  [{ id := 11, title := "Therapy", description := "", date := "2025-12-16",
     time := "10:00", category := "therapy", icon := "" }]

/-! ### Helper lemmas -/

theorem find?_cons_beq_false {α : Type} (p : α → Bool) (a : α) (l : List α)
    (h : p a = false) : (a :: l).find? p = l.find? p := by
  simp [List.find?, h]

theorem find?_cons_beq_true {α : Type} (p : α → Bool) (a : α) (l : List α)
    (h : p a = true) : (a :: l).find? p = some a := by
  simp [List.find?, h]

theorem setThread_cons_ne (kv : String × List Message)
    (rest : List (String × List Message)) (pid : String) (v : List Message)
    (h : (kv.1 == pid) = false) :
    setThread (kv :: rest) pid v = kv :: setThread rest pid v := by
  unfold setThread
  rw [find?_cons_beq_false (fun kv => kv.1 == pid) kv rest h]
  by_cases hs : ((rest.find? fun kv => kv.1 == pid).isSome : Prop)
  · simp only [if_pos hs, List.map_cons]
    rw [if_neg (by simp [h])]
  · simp only [if_neg hs]
    rw [List.cons_append]

theorem getThread_setThread (msgs : List (String × List Message)) (pid : String)
    (v : List Message) : getThread (setThread msgs pid v) pid = v := by
  induction msgs with
  | nil =>
    simp [setThread, getThread, List.find?]
  | cons kv rest ih =>
    by_cases h : (kv.1 == pid) = true
    · unfold setThread
      rw [find?_cons_beq_true (fun kv => kv.1 == pid) kv rest h]
      rw [if_pos (show ((some kv).isSome : Prop) from rfl)]
      rw [List.map_cons, if_pos h]
      unfold getThread
      rw [find?_cons_beq_true (fun kv => kv.1 == pid) (kv.1, v) _ h]
      rfl
    · have h' : (kv.1 == pid) = false := by simpa using h
      rw [setThread_cons_ne kv rest pid v h']
      unfold getThread
      rw [find?_cons_beq_false (fun kv => kv.1 == pid) kv _ h']
      exact ih

theorem find?_setLastMessageFirst (pid text : String) (now : Int)
    (ps : List Participant) (p : Participant)
    (h : ps.find? (fun q => q.id == pid) = some p) :
    (setLastMessageFirst pid text now ps).find? (fun q => q.id == pid)
      = some { p with lastMessage := text, lastMessageTime := now } := by
  induction ps with
  | nil => simp [List.find?] at h
  | cons q rest ih =>
    by_cases hq : (q.id == pid) = true
    · rw [find?_cons_beq_true (fun q => q.id == pid) q rest hq] at h
      injection h with h
      subst h
      unfold setLastMessageFirst
      rw [if_pos hq]
      exact find?_cons_beq_true (fun q : Participant => q.id == pid) _ _ hq
    · have hq' : (q.id == pid) = false := by simpa using hq
      rw [find?_cons_beq_false (fun q => q.id == pid) q rest hq'] at h
      unfold setLastMessageFirst
      rw [if_neg (by simp [hq'])]
      rw [find?_cons_beq_false (fun q => q.id == pid) q _ hq']
      exact ih h

theorem find?_clearUnreadFirst (pid : String)
    (ps : List Participant) (p : Participant)
    (h : ps.find? (fun q => q.id == pid) = some p) :
    (clearUnreadFirst pid ps).find? (fun q => q.id == pid)
      = some { p with unread := 0 } := by
  induction ps with
  | nil => simp [List.find?] at h
  | cons q rest ih =>
    by_cases hq : (q.id == pid) = true
    · rw [find?_cons_beq_true (fun q => q.id == pid) q rest hq] at h
      injection h with h
      subst h
      unfold clearUnreadFirst
      rw [if_pos hq]
      exact find?_cons_beq_true (fun q : Participant => q.id == pid) _ _ hq
    · have hq' : (q.id == pid) = false := by simpa using hq
      rw [find?_cons_beq_false (fun q => q.id == pid) q rest hq'] at h
      unfold clearUnreadFirst
      rw [if_neg (by simp [hq'])]
      rw [find?_cons_beq_false (fun q => q.id == pid) q _ hq']
      exact ih h

theorem unread_zero_of_mem_clearUnreadFirst (pid : String)
    (ps : List Participant) (hnd : (ps.map (·.id)).Nodup) (q : Participant)
    (hq : q ∈ clearUnreadFirst pid ps) (hid : q.id = pid) : q.unread = 0 := by
  induction ps with
  | nil => simp [clearUnreadFirst] at hq
  | cons p rest ih =>
    rw [List.map_cons, List.nodup_cons] at hnd
    unfold clearUnreadFirst at hq
    by_cases hp : (p.id == pid) = true
    · rw [if_pos hp] at hq
      rcases List.mem_cons.1 hq with rfl | hq
      · rfl
      · exfalso
        have hpid : p.id = pid := by simpa using hp
        have hmem : q.id ∈ rest.map (·.id) := List.mem_map_of_mem (·.id) hq
        rw [hid, ← hpid] at hmem
        exact hnd.1 hmem
    · rw [if_neg (by simp [hp])] at hq
      rcases List.mem_cons.1 hq with rfl | hq
      · exact absurd hid (by simpa using hp)
      · exact ih hnd.2 hq

theorem mem_of_mem_filterByType (filterType : String) (ps : List Participant)
    (q : Participant) (hq : q ∈ filterByType filterType ps) : q ∈ ps := by
  unfold filterByType at hq
  split at hq
  · exact (List.mem_filter.1 hq).1
  · split at hq
    · exact (List.mem_filter.1 hq).1
    · exact hq

/-! ### Claim theorems: chat -/

/-- C4: with an active participant and non-empty trimmed composer text,
`sendMessage` appends exactly one self-authored message carrying the
trimmed text and the current timestamp to the active thread, and rewrites
the active participant's `lastMessage`/`lastMessageTime` to that text and
time; with no active participant or an empty trimmed text it changes
nothing at all (in particular every thread's message count is unchanged). -/
theorem sendMessage_spec (st : ChatState) (now : Int) :
    (∀ pid, st.activeChat = some pid → ¬ jsTrim st.composer = "" →
        getThread (sendMessage st now).chatData.messages pid
          = getThread st.chatData.messages pid ++
              [{ id := "m" ++ toString now, sender := "me",
                 text := jsTrim st.composer, time := now, sent := true }]
      ∧ ∀ p, st.chatData.participants.find? (fun q => q.id == pid) = some p →
          (sendMessage st now).chatData.participants.find? (fun q => q.id == pid)
            = some { p with lastMessage := jsTrim st.composer, lastMessageTime := now })
    ∧ ((st.activeChat = none ∨ jsTrim st.composer = "") → sendMessage st now = st) := by
  constructor
  · intro pid hact hne
    have ht : (jsTrim st.composer == "") = false := by simpa using hne
    constructor
    · unfold sendMessage
      rw [hact]
      simp only [ht, Bool.false_eq_true, if_neg, not_false_iff]
      exact getThread_setThread _ _ _
    · intro p hp
      unfold sendMessage
      rw [hact]
      simp only [ht, Bool.false_eq_true, if_neg, not_false_iff]
      exact find?_setLastMessageFirst _ _ _ _ _ hp
  · intro h
    rcases h with h | h
    · unfold sendMessage
      rw [h]
    · unfold sendMessage
      cases hact : st.activeChat with
      | none => rfl
      | some pid => simp [h]

/-- Witness for C4 at `chatStateEx` (hypotheses discharged concretely),
plus the no-op branch at the same state with an emptied composer. -/
theorem sendMessage_spec_witness :
    (getThread (sendMessage chatStateEx 100).chatData.messages "p1"
      = getThread chatStateEx.chatData.messages "p1" ++
          [{ id := "m" ++ toString (100 : Int), sender := "me",
             text := jsTrim chatStateEx.composer, time := 100, sent := true }])
    ∧ sendMessage { chatStateEx with composer := "   " } 100
        = { chatStateEx with composer := "   " } :=
  ⟨((sendMessage_spec chatStateEx 100).1 "p1" rfl (by decide)).1,
   (sendMessage_spec { chatStateEx with composer := "   " } 100).2 (Or.inr (by decide))⟩

/-- C5: selecting a loaded participant id makes it active, resets its
unread count to 0, and the participant list re-rendered by the same call
shows no unread badge on any row with that id. -/
theorem selectParticipant_clears_unread (st : ChatState) (pid : String)
    (p : Participant)
    (hfind : st.chatData.participants.find? (fun q => q.id == pid) = some p)
    (hnd : (st.chatData.participants.map (·.id)).Nodup) :
    (selectParticipant st pid).activeChat = some pid
    ∧ (selectParticipant st pid).chatData.participants.find?
        (fun q => q.id == pid) = some { p with unread := 0 }
    ∧ (selectParticipant st pid).renderedList
        = renderParticipants (selectParticipant st pid).chatData (some pid)
            st.currentFilter
    ∧ ∀ r ∈ (selectParticipant st pid).renderedList, r.id = pid →
        r.showsUnreadBadge = false := by
  have hsel : selectParticipant st pid =
      { st with
        activeChat := some pid
        chatData := { st.chatData with
          participants := clearUnreadFirst pid st.chatData.participants }
        header := some (p.name, p.online)
        renderedThread := getThread st.chatData.messages pid
        renderedList := renderParticipants
          { st.chatData with
            participants := clearUnreadFirst pid st.chatData.participants }
          (some pid) st.currentFilter } := by
    unfold selectParticipant
    rw [hfind]
  refine ⟨by rw [hsel], ?_, by rw [hsel], ?_⟩
  · rw [hsel]
    exact find?_clearUnreadFirst _ _ _ hfind
  · rw [hsel]
    intro r hr hrid
    unfold renderParticipants at hr
    obtain ⟨q, hq, rfl⟩ := List.mem_map.1 hr
    have hq' : q ∈ clearUnreadFirst pid st.chatData.participants :=
      mem_of_mem_filterByType _ _ _ ((List.mem_insertionSort _).1 hq)
    have hz : q.unread = 0 :=
      unread_zero_of_mem_clearUnreadFirst pid _ hnd q hq' hrid
    simp [hz]

/-- Witness for C5 at `chatStateEx` / Alice. -/
theorem selectParticipant_clears_unread_witness :
    (selectParticipant chatStateEx "p1").chatData.participants.find?
        (fun q => q.id == "p1") = some { pAlice with unread := 0 } :=
  (selectParticipant_clears_unread chatStateEx "p1" pAlice (by decide)
    (by decide)).2.1

/-- C10: selecting an id absent from the loaded participant set still sets
the active-chat id, but leaves every participant record, the message map,
the header and all rendered chat DOM unchanged. -/
theorem selectParticipant_missing_id (st : ChatState) (pid : String)
    (h : st.chatData.participants.find? (fun p => p.id == pid) = none) :
    selectParticipant st pid = { st with activeChat := some pid } := by
  unfold selectParticipant
  rw [h]

/-- Witness for C10: an unknown id on `chatStateEx`. -/
theorem selectParticipant_missing_id_witness :
    selectParticipant chatStateEx "zz"
      = { chatStateEx with activeChat := some "zz" } :=
  selectParticipant_missing_id chatStateEx "zz" (by decide)

/-! ### Claim theorems: section navigation -/

/-- C6 counterexample: with only the dashboard visible, calling
`showSection` with the unknown name `"bogus"` is not a no-op — it hides
all four sections (zero visible) and overwrites `activeSection`. -/
theorem showSection_unknown_cex :
    showSection ⟨⟨true, false, false, false⟩, "dashboard"⟩ "bogus"
        ≠ ⟨⟨true, false, false, false⟩, "dashboard"⟩
    ∧ visibleCount (showSection ⟨⟨true, false, false, false⟩, "dashboard"⟩
        "bogus").vis = 0 := by
  decide

/-- C6 (amended): `showSection` always records its argument as the active
section; with one of the four known names exactly one section is visible
afterwards, while an unknown name hides all four sections (none visible)
rather than being a no-op. -/
theorem showSection_spec (st : NavState) (s : String) :
    (showSection st s).activeSection = s
    ∧ ((s = "dashboard" ∨ s = "schedule" ∨ s = "profile" ∨ s = "messages") →
        visibleCount (showSection st s).vis = 1)
    ∧ (¬(s = "dashboard" ∨ s = "schedule" ∨ s = "profile" ∨ s = "messages") →
        visibleCount (showSection st s).vis = 0) := by
  refine ⟨rfl, ?_, ?_⟩
  · rintro (rfl | rfl | rfl | rfl) <;> rfl
  · intro hn
    push_neg at hn
    obtain ⟨h1, h2, h3, h4⟩ := hn
    simp [showSection, visibleCount, h1, h2, h3, h4]

/-- Witness for C6 at a concrete state and the known name `"profile"`. -/
theorem showSection_spec_witness :
    visibleCount (showSection ⟨⟨true, false, false, false⟩, "x"⟩
      "profile").vis = 1 :=
  (showSection_spec ⟨⟨true, false, false, false⟩, "x"⟩ "profile").2.1
    (Or.inr (Or.inr (Or.inl rfl)))

/-! ### Claim theorems: data loading and login -/

/-- C9: when the calendar-events fetch fails (rejects/malformed JSON) or
yields an empty events list, the stored event set equals
`FallbackData.calendarEvents` exactly — same records, same order. -/
theorem loadCalendarEvents_fallback (r : FetchOutcome)
    (h : r = FetchOutcome.failure ∨
      ∃ evs?, r = FetchOutcome.success evs? ∧ evs?.getD [] = []) :
    loadCalendarEvents r = fallbackCalendarEvents := by
  rcases h with rfl | ⟨evs?, rfl, he⟩
  · rfl
  · simp [loadCalendarEvents, he]

/-- Witness for C9: the rejected-fetch case. -/
theorem loadCalendarEvents_fallback_witness :
    loadCalendarEvents FetchOutcome.failure = fallbackCalendarEvents :=
  loadCalendarEvents_fallback FetchOutcome.failure (Or.inl rfl)

/-- C8: submitting the login form with a password shorter than 8
characters blocks submission with the inline error
"Password must be at least 8 characters" on the password field; no login
request is issued (the result is `blocked`, never `request`). -/
theorem handleLogin_short_password (f : LoginForm)
    (h : f.password.length < 8) :
    ∃ errs, handleLogin f = LoginAction.blocked errs ∧
      ("passwordError", "Password must be at least 8 characters") ∈ errs := by
  have hv : validatePassword f.password = false := by
    simp [validatePassword]
    omega
  have hmem : ("passwordError", "Password must be at least 8 characters")
      ∈ loginErrors f := by
    unfold loginErrors
    rw [hv]
    simp
  refine ⟨loginErrors f, ?_, hmem⟩
  have hne : ¬ loginErrors f = [] := by
    intro he
    rw [he] at hmem
    exact List.not_mem_nil _ hmem
  unfold handleLogin
  simp [hne]

/-- Witness for C8: the spec's scenario, password `"short"` (5 chars). -/
theorem handleLogin_short_password_witness :
    ∃ errs, handleLogin ⟨"dokter", "short", "doctor"⟩
        = LoginAction.blocked errs ∧
      ("passwordError", "Password must be at least 8 characters") ∈ errs :=
  handleLogin_short_password ⟨"dokter", "short", "doctor"⟩ (by decide)

/-! ### Calendar-grid lemmas -/

theorem daysInMonth_le (y m : Nat) : daysInMonth y m ≤ 31 := by
  unfold daysInMonth
  split
  all_goals first | omega | (split <;> omega)

theorem startingDayOfWeek_le (y m : Nat) : startingDayOfWeek y m ≤ 6 := by
  have h : jsGetDay y m 1 < 7 := by
    unfold jsGetDay
    exact Nat.mod_lt _ (by omega)
  unfold startingDayOfWeek
  split <;> omega

/-- The loop of `renderCalendar` computes, cell by cell, the closed form
`cellAt`: the loop counters entering iteration `i` are determined by `i`. -/
theorem renderCells_eq_map (events : List CalendarEvent) (filters : List String)
    (y m : Nat) (today : Nat × Nat × Nat) (start dim prevLast : Nat) :
    ∀ k i,
      renderCells events filters y m today start dim prevLast k i
          (1 + (min i (start + dim) - min i start)) (1 + (i - (start + dim)))
        = (List.range' i k).map
            (cellAt events filters y m today start dim prevLast) := by
  intro k
  induction k with
  | zero => intro i; rfl
  | succ k ih =>
    intro i
    rw [List.range'_succ, List.map_cons]
    by_cases h1 : i < start
    · have e1 : 1 + (min i (start + dim) - min i start)
          = 1 + (min (i + 1) (start + dim) - min (i + 1) start) := by omega
      have e2 : 1 + (i - (start + dim)) = 1 + (i + 1 - (start + dim)) := by omega
      simp only [renderCells]
      rw [if_pos h1, e1, e2, ih (i + 1)]
      congr 1
      unfold cellAt
      rw [if_pos h1]
    · by_cases h2 : i < start + dim
      · have ed : 1 + (min i (start + dim) - min i start) = i - start + 1 := by
          omega
        have e1 : i - start + 1 + 1
            = 1 + (min (i + 1) (start + dim) - min (i + 1) start) := by omega
        have e2 : 1 + (i - (start + dim)) = 1 + (i + 1 - (start + dim)) := by
          omega
        simp only [renderCells]
        rw [if_neg h1, ed]
        rw [if_pos (show i - start + 1 ≤ dim by omega)]
        rw [e1, e2, ih (i + 1)]
        congr 1
        unfold cellAt
        rw [if_neg h1, if_pos h2]
      · have ed : 1 + (min i (start + dim) - min i start) = dim + 1 := by omega
        have en : 1 + (i - (start + dim)) = i - start - dim + 1 := by omega
        have e1 : dim + 1 = 1 + (min (i + 1) (start + dim) - min (i + 1) start) := by
          omega
        have e2 : i - start - dim + 1 + 1 = 1 + (i + 1 - (start + dim)) := by
          omega
        simp only [renderCells]
        rw [if_neg h1, ed]
        rw [if_neg (show ¬ dim + 1 ≤ dim by omega)]
        rw [en, e1, e2, ih (i + 1)]
        congr 1
        unfold cellAt
        rw [if_neg h1, if_neg h2]

/-- The grid is the image of `cellAt` over the 42 cell indices. -/
theorem calendarGrid_eq_map (events : List CalendarEvent) (filters : List String)
    (y m : Nat) (today : Nat × Nat × Nat) :
    calendarGrid events filters y m today
      = (List.range 42).map (cellAt events filters y m today
          (startingDayOfWeek y m) (daysInMonth y m) (prevMonthLastDay y m)) := by
  rw [List.range_eq_range']
  have h := renderCells_eq_map events filters y m today
    (startingDayOfWeek y m) (daysInMonth y m) (prevMonthLastDay y m) 42 0
  simpa [calendarGrid] using h

theorem getD_map_range {α : Type} (f : Nat → α) (n i : Nat) (d : α)
    (h : i < n) : ((List.range n).map f).getD i d = f i := by
  rw [List.getD_eq_getElem?_getD]
  simp [List.getElem?_map, List.getElem?_range, h]

theorem countP_range_interval (a b n : Nat) :
    (List.range n).countP (fun i => decide (a ≤ i ∧ i < b))
      = min n b - min n a := by
  induction n with
  | zero =>
    rw [List.range_zero, List.countP_nil]
    omega
  | succ n ih =>
    rw [List.range_succ, List.countP_append, ih]
    by_cases h : a ≤ n ∧ n < b
    · rw [List.countP_cons, List.countP_nil, if_pos (by simpa using h)]
      omega
    · rw [List.countP_cons, List.countP_nil, if_neg (by simpa using h)]
      omega

/-- C1: for every month/year cursor the grid has exactly 42 cells; exactly
`daysInMonth` of them belong to the current month; the leading
`startingDayOfWeek` cells (the Monday-based weekday index of the 1st) are
numbered with the last days of the previous month, the next `daysInMonth`
cells are the current month's days 1.. in order, and the remaining trailing
cells are numbered 1.. from the next month. -/
theorem renderCalendar_grid_shape (events : List CalendarEvent)
    (filters : List String) (y m : Nat) (today : Nat × Nat × Nat)
    (_hm : m < 12) :
    (calendarGrid events filters y m today).length = 42
    ∧ (calendarGrid events filters y m today).countP CalCell.isCur
        = daysInMonth y m
    ∧ (∀ i, i < startingDayOfWeek y m →
        (calendarGrid events filters y m today).getD i (CalCell.prevM 0)
          = CalCell.prevM
              (prevMonthLastDay y m - startingDayOfWeek y m + i + 1))
    ∧ (∀ j, j < daysInMonth y m →
        (calendarGrid events filters y m today).getD
            (startingDayOfWeek y m + j) (CalCell.prevM 0)
          = CalCell.curM (j + 1)
              ((j + 1) == today.2.2 && m == today.2.1 && y == today.1)
              (dayEventsFor events filters (dateStrOf y m (j + 1))))
    ∧ (∀ i, startingDayOfWeek y m + daysInMonth y m ≤ i → i < 42 →
        (calendarGrid events filters y m today).getD i (CalCell.prevM 0)
          = CalCell.nextM
              (i - startingDayOfWeek y m - daysInMonth y m + 1)) := by
  have hs6 := startingDayOfWeek_le y m
  have hd31 := daysInMonth_le y m
  rw [calendarGrid_eq_map]
  refine ⟨by simp, ?_, ?_, ?_, ?_⟩
  · rw [List.countP_map]
    rw [List.countP_congr (q := fun i =>
        decide (startingDayOfWeek y m ≤ i ∧
          i < startingDayOfWeek y m + daysInMonth y m)) ?_]
    · rw [countP_range_interval]
      omega
    · intro x _
      simp only [Function.comp]
      unfold cellAt
      by_cases h1 : x < startingDayOfWeek y m
      · rw [if_pos h1]
        have hx : ¬ (startingDayOfWeek y m ≤ x ∧
            x < startingDayOfWeek y m + daysInMonth y m) := by omega
        simp [CalCell.isCur, hx]
      · by_cases h2 : x < startingDayOfWeek y m + daysInMonth y m
        · rw [if_neg h1, if_pos h2]
          have hx : startingDayOfWeek y m ≤ x ∧
              x < startingDayOfWeek y m + daysInMonth y m := by omega
          simp [CalCell.isCur, hx]
        · rw [if_neg h1, if_neg h2]
          have hx : ¬ (startingDayOfWeek y m ≤ x ∧
              x < startingDayOfWeek y m + daysInMonth y m) := by omega
          simp [CalCell.isCur, hx]
  · intro i hi
    rw [getD_map_range _ 42 i _ (by omega)]
    unfold cellAt
    rw [if_pos hi]
  · intro j hj
    rw [getD_map_range _ 42 _ _ (by omega)]
    unfold cellAt
    rw [if_neg (by omega), if_pos (by omega)]
    rw [show startingDayOfWeek y m + j - startingDayOfWeek y m + 1 = j + 1
      from by omega]
  · intro i h1 h2
    rw [getD_map_range _ 42 i _ h2]
    unfold cellAt
    rw [if_neg (by omega), if_neg (by omega)]

/-- Witness for C1: December 2025 (cursor month 11), concrete counts. -/
theorem renderCalendar_grid_shape_witness :
    (calendarGrid [] [] 2025 11 (2025, 11, 16)).length = 42
    ∧ (calendarGrid [] [] 2025 11 (2025, 11, 16)).countP CalCell.isCur
        = daysInMonth 2025 11 :=
  ⟨(renderCalendar_grid_shape [] [] 2025 11 (2025, 11, 16) (by omega)).1,
   (renderCalendar_grid_shape [] [] 2025 11 (2025, 11, 16) (by omega)).2.1⟩

/-! ### Upcoming-list lemmas -/

theorem length_renderUpcomingEvents_le (now : Int)
    (events : List CalendarEvent) (filters : List String) :
    (renderUpcomingEvents now events filters).length ≤ 10 := by
  unfold renderUpcomingEvents
  exact List.length_take_le 10 _

theorem mem_renderUpcomingEvents (now : Int) (events : List CalendarEvent)
    (filters : List String)
    (h10 : (events.filter (upcomingPred now filters)).length ≤ 10)
    (e : CalendarEvent) :
    e ∈ renderUpcomingEvents now events filters ↔
      e ∈ events ∧ upcomingPred now filters e = true := by
  unfold renderUpcomingEvents
  rw [List.take_of_length_le (by rw [List.length_insertionSort]; exact h10)]
  rw [List.mem_insertionSort]
  exact List.mem_filter

theorem sorted_renderUpcomingEvents (now : Int) (events : List CalendarEvent)
    (filters : List String) :
    (renderUpcomingEvents now events filters).Sorted
      (fun a b => upcomingKey a ≤ upcomingKey b) := by
  unfold renderUpcomingEvents
  haveI ht : IsTotal CalendarEvent (fun a b => upcomingKey a ≤ upcomingKey b) :=
    ⟨fun a b => le_total _ _⟩
  haveI htr : IsTrans CalendarEvent (fun a b => upcomingKey a ≤ upcomingKey b) :=
    ⟨fun a b c hab hbc => le_trans hab hbc⟩
  exact List.Pairwise.sublist (List.take_sublist _ _)
    (List.sorted_insertionSort _ _)

theorem upcomingPred_eq_true_iff (now : Int) (filters : List String)
    (e : CalendarEvent) :
    upcomingPred now filters e = true ↔
      (∃ t, dateMs e.date = some t ∧ now ≤ t) ∧
        filters.contains e.category = true := by
  unfold upcomingPred
  rw [Bool.and_eq_true]
  constructor
  · rintro ⟨h1, h2⟩
    refine ⟨?_, h2⟩
    cases hd : dateMs e.date with
    | none =>
      rw [hd] at h1
      exact Bool.noConfusion h1
    | some t =>
      rw [hd] at h1
      exact ⟨t, rfl, of_decide_eq_true h1⟩
  · rintro ⟨⟨t, hd, ht⟩, h2⟩
    refine ⟨?_, h2⟩
    rw [hd]
    exact decide_eq_true ht

theorem upcoming_not_past (tz now : Int) (htz : tz < 86400000)
    (events : List CalendarEvent) (filters : List String) (e : CalendarEvent)
    (he : e ∈ renderUpcomingEvents now events filters)
    (dn : Nat) (hdn : dayNumOfDateStr e.date = some dn) :
    localDayOf tz now ≤ (dn : Int) := by
  unfold renderUpcomingEvents at he
  have h1 := List.take_subset _ _ he
  rw [List.mem_insertionSort] at h1
  have h2 := (List.mem_filter.1 h1).2
  rw [upcomingPred_eq_true_iff] at h2
  obtain ⟨⟨t, hd, ht⟩, _⟩ := h2
  unfold dateMs at hd
  rw [hdn] at hd
  have hteq : t = (dn : Int) * 86400000 := by
    simpa using hd.symm
  subst hteq
  unfold localDayOf
  omega

/-- C3 (amended): an event is listed by `renderUpcomingEvents` iff the
UTC-midnight instant of its date is at or after the current instant `now`
and its category is active (stated under the 10-item cap not being hit);
the list is sorted ascending by the date+time key and capped at 10.  No
listed event is dated before the current local day (`tz` below 24h), so
past events never appear — but an event dated exactly today is listed only
while `now` has not passed that date's midnight instant, because the source
compares `new Date(evt.date)` against the full current timestamp rather
than against the start of today. -/
theorem renderUpcomingEvents_spec (now tz : Int)
    (events : List CalendarEvent) (filters : List String) :
    ((events.filter (upcomingPred now filters)).length ≤ 10 →
      ∀ e, e ∈ renderUpcomingEvents now events filters ↔
        e ∈ events ∧
          (∃ t, dateMs e.date = some t ∧ now ≤ t) ∧
          filters.contains e.category = true)
    ∧ (renderUpcomingEvents now events filters).Sorted
        (fun a b => upcomingKey a ≤ upcomingKey b)
    ∧ (renderUpcomingEvents now events filters).length ≤ 10
    ∧ (tz < 86400000 →
        ∀ e ∈ renderUpcomingEvents now events filters,
          ∀ dn : Nat, dayNumOfDateStr e.date = some dn →
            localDayOf tz now ≤ (dn : Int)) := by
  refine ⟨?_, sorted_renderUpcomingEvents now events filters,
    length_renderUpcomingEvents_le now events filters, ?_⟩
  · intro h10 e
    rw [mem_renderUpcomingEvents now events filters h10]
    rw [upcomingPred_eq_true_iff]
  · intro htz e he dn hdn
    exact upcoming_not_past tz now htz events filters e he dn hdn

/-- C3 counterexample: one millisecond after UTC midnight of 2025-12-16 in
a UTC locale, the event dated 2025-12-16 — dated exactly today, with an
active category — is absent from the upcoming list. -/
theorem renderUpcomingEvents_today_cex :
    dayNumOfDateStr "2025-12-16" = some 739600
    ∧ localDayOf 0 (739600 * 86400000 + 1) = 739600
    ∧ (["meeting", "consultation", "therapy", "checkup"].contains
        "meeting") = true
    ∧ (⟨2, "Team Meeting", "Weekly physio team sync", "2025-12-16", "11:00",
          "meeting", "x"⟩ : CalendarEvent) ∉
        renderUpcomingEvents (739600 * 86400000 + 1)
          [⟨2, "Team Meeting", "Weekly physio team sync", "2025-12-16",
            "11:00", "meeting", "x"⟩]
          ["meeting", "consultation", "therapy", "checkup"] := by
  decide

/-- Witness for C3: the membership characterisation at a concrete event
set, with the cap hypothesis discharged concretely. -/
theorem renderUpcomingEvents_spec_witness :
    (⟨2, "Team Meeting", "Weekly physio team sync", "2025-12-16", "11:00",
        "meeting", "x"⟩ : CalendarEvent) ∈
      renderUpcomingEvents (739600 * 86400000)
        [⟨2, "Team Meeting", "Weekly physio team sync", "2025-12-16", "11:00",
          "meeting", "x"⟩]
        ["meeting", "consultation", "therapy", "checkup"] ↔
    ((⟨2, "Team Meeting", "Weekly physio team sync", "2025-12-16", "11:00",
        "meeting", "x"⟩ : CalendarEvent) ∈
      [(⟨2, "Team Meeting", "Weekly physio team sync", "2025-12-16", "11:00",
        "meeting", "x"⟩ : CalendarEvent)] ∧
      (∃ t, dateMs "2025-12-16" = some t ∧ 739600 * 86400000 ≤ t) ∧
      (["meeting", "consultation", "therapy", "checkup"].contains
        "meeting") = true) :=
  (renderUpcomingEvents_spec (739600 * 86400000) 0
    [⟨2, "Team Meeting", "Weekly physio team sync", "2025-12-16", "11:00",
      "meeting", "x"⟩]
    ["meeting", "consultation", "therapy", "checkup"]).1 (by decide)
    ⟨2, "Team Meeting", "Weekly physio team sync", "2025-12-16", "11:00",
      "meeting", "x"⟩

/-! ### Filter-visibility across views -/

theorem not_mem_dayEventsFor (events : List CalendarEvent)
    (filters : List String) (ds : String) (e : CalendarEvent)
    (hc : filters.contains e.category = false) :
    e ∉ dayEventsFor events filters ds := by
  intro hmem
  have h := (List.mem_filter.1 hmem).2
  rw [Bool.and_eq_true] at h
  rw [hc] at h
  exact Bool.noConfusion h.2

/-- C2 (amended): the category filter governs the month-grid day cells and
the upcoming list — an event with an inactive category appears in neither,
and one with an active category appears in the cell of its date (and, below
the 10-item cap, in the upcoming list when its date qualifies).  The mini
calendar's dot-marks and the today list however ignore the filter: a dot
marks every day with any event whatsoever, and the today list carries every
event dated today regardless of category. -/
theorem calendar_views_filter_visibility (events : List CalendarEvent)
    (filters : List String) (y m : Nat) (today : Nat × Nat × Nat)
    (now : Int) (e : CalendarEvent) :
    (filters.contains e.category = false →
        (∀ c ∈ calendarGrid events filters y m today,
            ∀ d b evs, c = CalCell.curM d b evs → e ∉ evs)
      ∧ e ∉ renderUpcomingEvents now events filters)
    ∧ (∀ d ist hev,
        MiniCell.day d ist hev ∈ renderMiniCalendar events y m today →
          (hev = true ↔ ∃ ev ∈ events, ev.date = dateStrOf y m d))
    ∧ (e ∈ renderTodaysEvents today events ↔
        e ∈ events ∧ e.date = todayDateStr today)
    ∧ (filters.contains e.category = true → e ∈ events →
        ∀ d, 1 ≤ d → d ≤ daysInMonth y m → e.date = dateStrOf y m d →
          ∃ b evs,
            (calendarGrid events filters y m today).getD
                (startingDayOfWeek y m + (d - 1)) (CalCell.prevM 0)
              = CalCell.curM d b evs ∧ e ∈ evs)
    ∧ (filters.contains e.category = true → e ∈ events →
        (events.filter (upcomingPred now filters)).length ≤ 10 →
        ∀ t, dateMs e.date = some t → now ≤ t →
          e ∈ renderUpcomingEvents now events filters) := by
  refine ⟨?_, ?_, ?_, ?_, ?_⟩
  · intro hc
    constructor
    · intro c hcmem d b evs hceq
      rw [calendarGrid_eq_map] at hcmem
      obtain ⟨i, _, rfl⟩ := List.mem_map.1 hcmem
      unfold cellAt at hceq
      split at hceq
      · exact CalCell.noConfusion hceq
      · split at hceq
        · rw [CalCell.curM.injEq] at hceq
          obtain ⟨-, -, hevs⟩ := hceq
          subst hevs
          exact not_mem_dayEventsFor events filters _ e hc
        · exact CalCell.noConfusion hceq
    · intro hmem
      unfold renderUpcomingEvents at hmem
      have h1 := List.take_subset _ _ hmem
      rw [List.mem_insertionSort] at h1
      have h2 := (List.mem_filter.1 h1).2
      unfold upcomingPred at h2
      rw [Bool.and_eq_true] at h2
      rw [hc] at h2
      exact Bool.noConfusion h2.2
  · intro d ist hev hmem
    unfold renderMiniCalendar at hmem
    rcases List.mem_append.1 hmem with h | h
    · exact absurd (List.eq_of_mem_replicate h) (by simp)
    · obtain ⟨k, _, hk⟩ := List.mem_map.1 h
      rw [MiniCell.day.injEq] at hk
      obtain ⟨hd, -, hhev⟩ := hk
      subst hd
      rw [← hhev, List.any_eq_true]
      constructor
      · rintro ⟨ev, hmem2, hbeq⟩
        exact ⟨ev, hmem2, by simpa using hbeq⟩
      · rintro ⟨ev, hmem2, heq⟩
        exact ⟨ev, hmem2, by simpa using heq⟩
  · unfold renderTodaysEvents
    rw [List.mem_filter]
    constructor
    · rintro ⟨h1, h2⟩
      exact ⟨h1, by simpa using h2⟩
    · rintro ⟨h1, h2⟩
      exact ⟨h1, by simpa using h2⟩
  · intro hc hmem d h1 h2 hdate
    have hs6 := startingDayOfWeek_le y m
    have hd31 := daysInMonth_le y m
    rw [calendarGrid_eq_map]
    rw [getD_map_range _ 42 _ _ (by omega)]
    unfold cellAt
    rw [if_neg (by omega), if_pos (by omega)]
    rw [show startingDayOfWeek y m + (d - 1) - startingDayOfWeek y m + 1 = d
      from by omega]
    refine ⟨_, _, rfl, ?_⟩
    unfold dayEventsFor
    rw [List.mem_filter]
    refine ⟨hmem, ?_⟩
    rw [Bool.and_eq_true]
    exact ⟨by simpa using hdate, hc⟩
  · intro hc hmem h10 t hdt hnt
    rw [mem_renderUpcomingEvents now events filters h10]
    refine ⟨hmem, ?_⟩
    rw [upcomingPred_eq_true_iff]
    exact ⟨⟨t, hdt, hnt⟩, hc⟩

/-- C2 counterexample: a therapy event while only `"meeting"` is an active
filter — its category is filtered out, yet it still appears in the today
list and its day still carries the mini calendar's `has-events` dot. -/
theorem calendar_views_filter_visibility_cex :
    (["meeting"] : List String).contains "therapy" = false
    ∧ (⟨3, "Therapy Session", "d", "2025-12-16", "14:00", "therapy", "x"⟩ :
          CalendarEvent)
        ∈ renderTodaysEvents (2025, 11, 16)
            [⟨3, "Therapy Session", "d", "2025-12-16", "14:00", "therapy",
              "x"⟩]
    ∧ (renderMiniCalendar
          [⟨3, "Therapy Session", "d", "2025-12-16", "14:00", "therapy", "x"⟩]
          2025 11 (2025, 11, 16)).contains (MiniCell.day 16 true true)
        = true := by
  decide

/-- Witness for C2: the filtered-out therapy event is absent from the
upcoming list (hypothesis of the first conjunct discharged concretely). -/
theorem calendar_views_filter_visibility_witness :
    (⟨3, "Therapy Session", "d", "2025-12-16", "14:00", "therapy", "x"⟩ :
        CalendarEvent) ∉
      renderUpcomingEvents 0
        [⟨3, "Therapy Session", "d", "2025-12-16", "14:00", "therapy", "x"⟩]
        ["meeting"] :=
  ((calendar_views_filter_visibility
      [⟨3, "Therapy Session", "d", "2025-12-16", "14:00", "therapy", "x"⟩]
      ["meeting"] 2025 11 (2025, 11, 16) 0
      ⟨3, "Therapy Session", "d", "2025-12-16", "14:00", "therapy", "x"⟩).1
    (by decide)).2

/-! ### Category-filter toggling -/

theorem contains_eq_true_iff (l : List String) (b : String) :
    l.contains b = true ↔ b ∈ l :=
  List.elem_iff

theorem contains_eq_false_iff (l : List String) (b : String) :
    l.contains b = false ↔ b ∉ l := by
  rw [← Bool.not_eq_true, contains_eq_true_iff]

theorem contains_erase_of_nodup (l : List String) (hnd : l.Nodup)
    (a b : String) :
    (l.erase a).contains b = (l.contains b && !(b == a)) := by
  by_cases hba : b = a
  · subst hba
    have h1 : b ∉ l.erase b := fun hc => (hnd.mem_erase_iff.1 hc).1 rfl
    rw [(contains_eq_false_iff _ _).2 h1]
    simp
  · have h1 : b ∈ l.erase a ↔ b ∈ l := by
      rw [hnd.mem_erase_iff]
      tauto
    by_cases hmem : b ∈ l
    · rw [(contains_eq_true_iff _ _).2 (h1.2 hmem),
        (contains_eq_true_iff _ _).2 hmem]
      simp [beq_iff_eq, hba]
    · rw [(contains_eq_false_iff _ _).2 (fun hc => hmem (h1.1 hc)),
        (contains_eq_false_iff _ _).2 hmem]
      simp

theorem mem_filterEvents_twice (filters : List String) (cat : String)
    (hnd : filters.Nodup) (c : String) :
    c ∈ filterEvents (filterEvents filters cat) cat ↔ c ∈ filters := by
  unfold filterEvents
  by_cases hmem : cat ∈ filters
  · rw [if_pos ((contains_eq_true_iff _ _).2 hmem)]
    have he : ¬ (filters.erase cat).contains cat = true := by
      rw [contains_eq_true_iff]
      intro hc
      exact (hnd.mem_erase_iff.1 hc).1 rfl
    rw [if_neg he]
    rw [List.mem_append, hnd.mem_erase_iff]
    constructor
    · rintro (⟨-, h⟩ | h)
      · exact h
      · rw [List.mem_singleton.1 h]
        exact hmem
    · intro h
      by_cases hc : c = cat
      · exact Or.inr (by rw [hc]; exact List.mem_singleton.2 rfl)
      · exact Or.inl ⟨hc, h⟩
  · rw [if_neg (fun hc => hmem ((contains_eq_true_iff _ _).1 hc))]
    have he : (filters ++ [cat]).contains cat = true := by
      rw [contains_eq_true_iff, List.mem_append]
      exact Or.inr (List.mem_singleton.2 rfl)
    rw [if_pos he]
    have herase : (filters ++ [cat]).erase cat = filters := by
      rw [List.erase_append_right _ hmem]
      simp
    rw [herase]

theorem contains_eq_of_mem_iff (l1 l2 : List String) (c : String)
    (h : c ∈ l1 ↔ c ∈ l2) : l1.contains c = l2.contains c := by
  by_cases hm : c ∈ l2
  · rw [(contains_eq_true_iff _ _).2 (h.2 hm), (contains_eq_true_iff _ _).2 hm]
  · rw [(contains_eq_false_iff _ _).2 (fun hc => hm (h.1 hc)),
      (contains_eq_false_iff _ _).2 hm]

theorem dayEventsFor_congr (events : List CalendarEvent) (f1 f2 : List String)
    (h : ∀ c, f1.contains c = f2.contains c) (ds : String) :
    dayEventsFor events f1 ds = dayEventsFor events f2 ds := by
  unfold dayEventsFor
  apply List.filter_congr
  intro e _
  rw [h e.category]

theorem renderUpcomingEvents_congr (now : Int) (events : List CalendarEvent)
    (f1 f2 : List String) (h : ∀ c, f1.contains c = f2.contains c) :
    renderUpcomingEvents now events f1 = renderUpcomingEvents now events f2 := by
  unfold renderUpcomingEvents
  have hf : events.filter (upcomingPred now f1)
      = events.filter (upcomingPred now f2) := by
    apply List.filter_congr
    intro e _
    unfold upcomingPred
    rw [h e.category]
  rw [hf]

theorem calendarGrid_congr (events : List CalendarEvent) (f1 f2 : List String)
    (y m : Nat) (today : Nat × Nat × Nat)
    (h : ∀ c, f1.contains c = f2.contains c) :
    calendarGrid events f1 y m today = calendarGrid events f2 y m today := by
  rw [calendarGrid_eq_map, calendarGrid_eq_map]
  apply List.map_congr_left
  intro i _
  unfold cellAt
  rw [dayEventsFor_congr events f1 f2 h]

theorem upcomingPred_erase (now : Int) (filters : List String)
    (hnd : filters.Nodup) (cat : String) (e : CalendarEvent) :
    upcomingPred now (filters.erase cat) e
      = (upcomingPred now filters e && !(e.category == cat)) := by
  unfold upcomingPred
  rw [contains_erase_of_nodup filters hnd cat e.category]
  cases hm : (match dateMs e.date with
    | some t => decide (now ≤ t)
    | none => false : Bool) <;>
    cases filters.contains e.category <;> cases e.category == cat <;> rfl

/-- C7 (amended): with a duplicate-free active-filter list, toggling a
category off removes exactly that category's events from every calendar day
cell; on the upcoming list, below the 10-item cap, the visible set is
likewise exactly the previous one minus that category (at the cap, events
previously cut off can additionally surface).  Every grid-derived view
depends on the filter list only through membership, and toggling the same
category twice restores the membership of the active-filter set — so the
visible set after any toggle sequence depends only on the final membership,
not the order. -/
theorem filterEvents_toggle_spec (events : List CalendarEvent)
    (filters : List String) (cat : String) (y m : Nat)
    (today : Nat × Nat × Nat) (now : Int) :
    (filters.Nodup → filters.contains cat = true →
        (∀ ds, dayEventsFor events (filterEvents filters cat) ds
            = (dayEventsFor events filters ds).filter
                fun e => !(e.category == cat))
      ∧ ((events.filter (upcomingPred now filters)).length ≤ 10 →
          ∀ e, e ∈ renderUpcomingEvents now events (filterEvents filters cat) ↔
            e ∈ renderUpcomingEvents now events filters ∧ ¬ e.category = cat))
    ∧ (∀ f1 f2 : List String, (∀ c, f1.contains c = f2.contains c) →
        calendarGrid events f1 y m today = calendarGrid events f2 y m today
        ∧ renderUpcomingEvents now events f1
            = renderUpcomingEvents now events f2
        ∧ ∀ ds, dayEventsFor events f1 ds = dayEventsFor events f2 ds)
    ∧ (filters.Nodup →
        ∀ c, (filterEvents (filterEvents filters cat) cat).contains c
          = filters.contains c) := by
  refine ⟨?_, ?_, ?_⟩
  · intro hnd hcat
    have htog : filterEvents filters cat = filters.erase cat := by
      unfold filterEvents
      rw [if_pos hcat]
    constructor
    · intro ds
      rw [htog]
      unfold dayEventsFor
      rw [List.filter_filter]
      apply List.filter_congr
      intro e _
      rw [contains_erase_of_nodup filters hnd cat e.category]
      cases e.date == ds <;> cases filters.contains e.category <;>
        cases e.category == cat <;> rfl
    · intro h10 e
      rw [htog]
      have hpred : events.filter (upcomingPred now (filters.erase cat))
          = (events.filter (upcomingPred now filters)).filter
              fun e => !(e.category == cat) := by
        rw [List.filter_filter]
        apply List.filter_congr
        intro e _
        rw [upcomingPred_erase now filters hnd cat e]
        cases upcomingPred now filters e <;> cases e.category == cat <;> rfl
      have h10' : (events.filter (upcomingPred now (filters.erase cat))).length
          ≤ 10 := by
        rw [hpred]
        exact le_trans (List.length_filter_le _ _) h10
      rw [mem_renderUpcomingEvents now events _ h10' e]
      rw [mem_renderUpcomingEvents now events filters h10 e]
      rw [upcomingPred_erase now filters hnd cat e, Bool.and_eq_true]
      constructor
      · rintro ⟨hmem, hp, hne⟩
        refine ⟨⟨hmem, hp⟩, ?_⟩
        simpa using hne
      · rintro ⟨⟨hmem, hp⟩, hne⟩
        exact ⟨hmem, hp, by simpa using hne⟩
  · intro f1 f2 h
    exact ⟨calendarGrid_congr events f1 f2 y m today h,
      renderUpcomingEvents_congr now events f1 f2 h,
      dayEventsFor_congr events f1 f2 h⟩
  · intro hnd c
    exact contains_eq_of_mem_iff _ _ c (mem_filterEvents_twice filters cat hnd c)

/-- C7 counterexample: eleven qualifying events, ten meetings and a later
therapy session — the therapy event is cut off by the 10-item cap while
`"meeting"` is active, and becomes visible after toggling `"meeting"` off.
Toggling a category off therefore does not merely remove that category's
events from the upcoming list. -/
theorem filterEvents_cap_cex :
    (⟨11, "Therapy", "", "2025-12-16", "10:00", "therapy", ""⟩ : CalendarEvent)
        ∈ renderUpcomingEvents (739600 * 86400000) capEventsEx
            (filterEvents ["meeting", "consultation", "therapy", "checkup"]
              "meeting")
    ∧ (⟨11, "Therapy", "", "2025-12-16", "10:00", "therapy", ""⟩ :
          CalendarEvent)
        ∉ renderUpcomingEvents (739600 * 86400000) capEventsEx
            ["meeting", "consultation", "therapy", "checkup"]
    ∧ ("therapy" : String) ≠ "meeting" := by
  decide

/-- Witness for C7: the day-cell part at a concrete event set and filter
list, hypotheses discharged concretely. -/
theorem filterEvents_toggle_spec_witness :
    dayEventsFor capEventsEx (filterEvents ["meeting", "therapy"] "meeting")
        "2025-12-16"
      = (dayEventsFor capEventsEx ["meeting", "therapy"] "2025-12-16").filter
          (fun e => !(e.category == "meeting")) :=
  (((filterEvents_toggle_spec capEventsEx ["meeting", "therapy"] "meeting"
      2025 11 (2025, 11, 16) 0).1 (by decide) (by decide)).1) "2025-12-16"

end NeuroTrack
